import Mathlib

/-!
Verification of the stream processor core (stream.ts): the SimpleBatcher
batch accumulator and the startStream connection loop. The batcher is
modelled as an explicit state machine in which a flush is split into its
synchronous part (swap the batch, clear the timer, start the network call)
and a separate completion step (the fetch resolves with a 2xx, or fails),
so that interleavings of adds, timer callbacks and network responses can be
stated and proved.
-/

/-- Event record pushed into the batcher (stream.ts lines 18-21). -/
structure CastEvent where
  fid : Nat
  timestamp : Nat
  deriving DecidableEq, Repr

/-- Size threshold constant BATCH_SIZE (stream.ts line 10). -/
def BATCH_SIZE : Nat := 20

/-- Idle timeout constant BATCH_TIMEOUT in milliseconds (stream.ts line 11). -/
def BATCH_TIMEOUT : Nat := 5000

/-- State of a SimpleBatcher instance together with the runtime facts the
claims are about: the cooperative scheduler's pending timeouts, the wall
clock, and the delivery network calls that have been started but not yet
answered (inFlight), started at all (sent), or acknowledged with a success
status (delivered). -/
structure BatcherState where
  batchSize : Nat
  timeout : Nat
  batch : List CastEvent
  timer : Option Nat
  scheduled : Bool
  liveTimers : Nat
  now : Nat
  inFlight : List (List CastEvent)
  sent : List (List CastEvent)
  delivered : List (List CastEvent)
  deriving DecidableEq, Repr

namespace SimpleBatcher

/-- Effect of clearTimeout on the handle held in the timer field: the runtime
drops the timeout only if it is still pending; already-fired or
already-cleared handles are no-ops. The field itself is left as the caller
wrote it (line 43 keeps the stale handle, lines 56-59 also null it). -/
def clearPending (s : BatcherState) : BatcherState :=
  if s.scheduled then { s with liveTimers := s.liveTimers - 1, scheduled := false } else s

/-- resetTimer (stream.ts lines 42-48): clearTimeout on any held handle, then,
only if the batch is non-empty, schedule a new one-shot flush timer due
timeout milliseconds from now. -/
def resetTimer (s : BatcherState) : BatcherState :=
  let s1 := clearPending s
  if s1.batch.length > 0 then
    { s1 with timer := some (s1.now + s1.timeout),
              scheduled := true,
              liveTimers := s1.liveTimers + 1 }
  else s1

/-- Synchronous part of flush (stream.ts lines 50-66): return unchanged on an
empty batch; otherwise copy the batch, swap in an empty one, clear and null
the timer, and start the delivery network call carrying the copied batch. -/
def flushStart (s : BatcherState) : BatcherState :=
  if s.batch.length = 0 then s
  else
    let batchToSend := s.batch
    let s1 := clearPending { s with batch := [] }
    let s2 := { s1 with timer := none }
    { s2 with inFlight := s2.inFlight ++ [batchToSend],
              sent := s2.sent ++ [batchToSend] }

/-- add (stream.ts lines 32-40): push the event; at the size threshold call
flush, otherwise re-arm the idle timer. The flush call is not awaited, so
only its synchronous part runs before add returns. -/
def add (s : BatcherState) (cast : CastEvent) : BatcherState :=
  let s1 := { s with batch := s.batch ++ [cast] }
  if s1.batch.length ≥ s1.batchSize then flushStart s1 else resetTimer s1

/-- Response processing for the delivery call held in inFlight slot i when it
returns a success status (stream.ts lines 68-72): the sent batch is logged
and discarded. -/
def completeOk (s : BatcherState) (i : Nat) : BatcherState :=
  match s.inFlight[i]? with
  | none => s
  | some b => { s with inFlight := s.inFlight.eraseIdx i,
                       delivered := s.delivered ++ [b] }

/-- Catch branch of flush (stream.ts lines 73-77) for the delivery call held
in inFlight slot i when it fails (transport error or non-2xx status): the
error is logged and swallowed, and the first 10 records of the sent batch
are unshifted onto the front of the current batch; the rest are dropped. -/
def completeFail (s : BatcherState) (i : Nat) : BatcherState :=
  match s.inFlight[i]? with
  | none => s
  | some b => { s with inFlight := s.inFlight.eraseIdx i,
                       batch := b.take 10 ++ s.batch }

/-- Firing of a pending timeout: the runtime removes it from its pending set
and runs its callback, which is flush (stream.ts line 46). -/
def fireTimer (s : BatcherState) : BatcherState :=
  flushStart { s with scheduled := false, liveTimers := s.liveTimers - 1 }

/-- A fresh SimpleBatcher (stream.ts lines 23-30) at wall-clock time 0. -/
def init (batchSize timeout : Nat) : BatcherState :=
  { batchSize := batchSize, timeout := timeout, batch := [], timer := none,
    scheduled := false, liveTimers := 0, now := 0,
    inFlight := [], sent := [], delivered := [] }

end SimpleBatcher

/-- Runtime occurrences that can touch the batcher: an add from the consume
loop, the timer callback firing, a direct flush call (shutdown), a network
response (success or failure) for inFlight slot i, and the clock advancing. -/
inductive BAction where
  | act_add (cast : CastEvent)
  | act_timer
  | act_flush
  | act_ok (i : Nat)
  | act_fail (i : Nat)
  | act_advance (d : Nat)
  deriving DecidableEq, Repr

/-- Effect of one action. A timer action with no pending timeout, and a
response for a slot that holds no call, cannot occur and change nothing. -/
def applyAction (s : BatcherState) : BAction → BatcherState
  | .act_add cast => SimpleBatcher.add s cast
  | .act_timer => if s.scheduled then SimpleBatcher.fireTimer s else s
  | .act_flush => SimpleBatcher.flushStart s
  | .act_ok i => SimpleBatcher.completeOk s i
  | .act_fail i => SimpleBatcher.completeFail s i
  | .act_advance d => { s with now := s.now + d }

/-- Run a sequence of actions from a state. -/
def run (s : BatcherState) (acts : List BAction) : BatcherState :=
  acts.foldl applyAction s

/-- States reachable from a fresh batcher by some action sequence. -/
def Reachable (batchSize timeout : Nat) (s : BatcherState) : Prop :=
  ∃ acts : List BAction, run (SimpleBatcher.init batchSize timeout) acts = s

/-- Multiset of every event currently owned by the batcher or the network
layer: pending in the batch, inside an in-flight call, or delivered. -/
def content (s : BatcherState) : Multiset CastEvent :=
  (↑s.batch + ↑s.inFlight.flatten + ↑s.delivered.flatten : Multiset CastEvent)

/-- Events pushed by the add actions of a sequence, in order. -/
def addedOf (acts : List BAction) : List CastEvent :=
  acts.filterMap (fun a => match a with | .act_add cast => some cast | _ => none)

/-- True when no action of the sequence is a failed network response. -/
def failFree (acts : List BAction) : Bool :=
  acts.all (fun a => match a with | .act_fail _ => false | _ => true)

/-- True when the sequence contains no add and no direct flush call: only
timer callbacks, network responses and clock advances. -/
def noAddNoFlush (acts : List BAction) : Bool :=
  acts.all (fun a => match a with
    | .act_add _ => false
    | .act_flush => false
    | _ => true)

/-- Fold add over a list of events, back to back (no timer fires between). -/
def addAll (s : BatcherState) (cs : List CastEvent) : BatcherState :=
  cs.foldl SimpleBatcher.add s

/-- Run adds at explicit wall-clock instants: each add is performed with the
clock set to its instant. -/
def runTimedAdds (s : BatcherState) : List (Nat × CastEvent) → BatcherState
  | [] => s
  | (t, cast) :: rest => runTimedAdds (SimpleBatcher.add { s with now := t } cast) rest

/-- Each timed add arrives no earlier than the previous one and strictly
before the idle deadline armed by the previous one would expire. -/
def gapsOk (timeout : Nat) : List (Nat × CastEvent) → Bool
  | (t1, _) :: (t2, c2) :: rest =>
      decide (t1 ≤ t2) && decide (t2 < t1 + timeout) && gapsOk timeout ((t2, c2) :: rest)
  | _ => true

/-- Inner message of an upstream hub event envelope, flattened to the two
fields the consume loop inspects (stream.ts lines 124-126). -/
structure RawMessage where
  type : Nat
  fid : Nat
  deriving DecidableEq, Repr

/-- Upstream event envelope: mergeMessageBody.message.data may be absent. -/
structure HubEvent where
  message : Option RawMessage
  deriving DecidableEq, Repr

/-- Events the consume loop forwards to the batcher: envelopes whose inner
message has type 1, mapped to their fid plus the wall-clock receipt time
(stream.ts lines 123-127). -/
def forwardedEvents (evs : List HubEvent) (now : Nat) : List CastEvent :=
  evs.filterMap (fun e =>
    match e.message with
    | some m => if m.type = 1 then some { fid := m.fid, timestamp := now } else none
    | none => none)

/-- What the external world does during one connect attempt of the while
loop: waitForReady reports an error, subscribe resolves non-ok, subscribe
(or stream setup) throws, or the stream yields some envelopes and then
either raises or ends cleanly. -/
inductive UpstreamBehavior where
  | readyError
  | subscribeRejected
  | subscribeThrows
  | streamEvents (evs : List HubEvent) (raisesAfter : Bool)
  deriving DecidableEq, Repr

/-- Settlement of the promise awaited by the while-loop body. The executor
never invokes resolve anywhere in its code, so the promise is either
rejected or pending forever. -/
inductive PromiseState where
  | rejectedP
  | pendingP
  deriving DecidableEq, Repr

/-- Observable effects of one connect attempt (stream.ts lines 96-143):
events forwarded to the batcher, whether client.close() ran, and how the
awaited promise settles. -/
structure IterEffects where
  forwarded : List CastEvent
  closedClient : Bool
  promise : PromiseState
  deriving DecidableEq, Repr

/-- One connect attempt (stream.ts lines 103-143). On a waitForReady error
the callback rejects and returns before entering the try/finally, so
client.close() does not run on that path; every path through the callback
body runs the finally and closes. A subscribe rejection or a mid-stream
raise rejects the promise after forwarding whatever was consumed; a stream
that ends cleanly leaves the promise pending forever. -/
def connectAttempt (b : UpstreamBehavior) (now : Nat) : IterEffects :=
  match b with
  | .readyError => { forwarded := [], closedClient := false, promise := .rejectedP }
  | .subscribeRejected => { forwarded := [], closedClient := true, promise := .rejectedP }
  | .subscribeThrows => { forwarded := [], closedClient := true, promise := .rejectedP }
  | .streamEvents evs raisesAfter =>
      { forwarded := forwardedEvents evs now,
        closedClient := true,
        promise := if raisesAfter then .rejectedP else .pendingP }

/-- What the while loop does after one iteration body. -/
inductive LoopStep where
  | retryAfterMs (ms : Nat)
  | blockedForever
  deriving DecidableEq, Repr

/-- Catch clause of the while loop (stream.ts lines 144-148): every rejection
of the awaited promise is caught, logged and followed by a fixed 10000 ms
delay before the next iteration; a never-settling promise blocks the loop. -/
def iterationOutcome (b : UpstreamBehavior) (now : Nat) : LoopStep :=
  match (connectAttempt b now).promise with
  | .rejectedP => .retryAfterMs 10000
  | .pendingP => .blockedForever

/-- Process-level status of startStream while it runs. -/
inductive LoopState where
  | running
  | blocked
  | exited (code : Nat)
  deriving DecidableEq, Repr

/-- One turn of the while (true) loop: a caught error leaves it running for
the next attempt; a never-settling await blocks it; no branch of the loop
body reaches a process exit. -/
def stepLoop (st : LoopState) (b : UpstreamBehavior) : LoopState :=
  match st with
  | .running =>
      match iterationOutcome b 0 with
      | .retryAfterMs _ => .running
      | .blockedForever => .blocked
  | st => st

/-- The while loop across a whole sequence of connect attempts. -/
def runLoop (bs : List UpstreamBehavior) : LoopState :=
  bs.foldl stepLoop .running

/-- True for behaviors that raise an error at some stage; a stream that ends
cleanly is not an error. -/
def isErrorBehavior : UpstreamBehavior → Bool
  | .streamEvents _ raisesAfter => raisesAfter
  | _ => true

/-- True exactly for a connect-stage (readiness) error. -/
def isReadyError : UpstreamBehavior → Bool
  | .readyError => true
  | _ => false

/-- SIGINT handler (stream.ts lines 88-92): await batcher.flush(), then
process.exit(0). Because the flush is awaited, the delivery call it starts
completes (with either outcome) before the exit. Returns the batcher state
at exit and the exit code. -/
def sigintHandler (s : BatcherState) (deliveryOk : Bool) : BatcherState × Nat :=
  let s1 := SimpleBatcher.flushStart s
  let s2 :=
    if s.batch.length = 0 then s1
    else if deliveryOk then SimpleBatcher.completeOk s1 (s1.inFlight.length - 1)
    else SimpleBatcher.completeFail s1 (s1.inFlight.length - 1)
  (s2, 0)

/-- Fate of the process at module load time. -/
inductive StartupResult where
  | exitedStartup (code : Nat)
  | runningStream (key : String)
  deriving DecidableEq, Repr

/-- Startup credential guard (stream.ts lines 13-16): !NEYNAR_API_KEY is true
both for an unset variable and for the empty string; either case logs and
exits with status 1 before any client is created. -/
def startupCheck (envKey : Option String) : StartupResult :=
  match envKey with
  | none => .exitedStartup 1
  | some k => if k.isEmpty then .exitedStartup 1 else .runningStream k

/-- True when startup went on to create a connection. -/
def startedConnection : StartupResult → Bool
  | .runningStream _ => true
  | _ => false

/-- Concrete event used by witnesses. -/
def ev (n : Nat) : CastEvent :=
  { fid := n, timestamp := 0 }

/-- Nineteen pending events: one below the default size threshold. -/
def batch19 : List CastEvent :=
  (List.range 19).map ev

/-- A batcher one event short of the default size threshold. -/
def s19 : BatcherState :=
  { SimpleBatcher.init BATCH_SIZE BATCH_TIMEOUT with batch := batch19 }

/-- Signals relevant to the shutdown contract: the interrupt signal and the
termination signal. -/
inductive PosixSignal where
  | SIGINT
  | SIGTERM
  deriving DecidableEq, Repr

/-- Signal handlers installed by the program: startStream registers a
handler for SIGINT only (stream.ts line 88); no SIGTERM handler is
registered anywhere in the repository. -/
def handlerRegistered : PosixSignal → Bool
  | .SIGINT => true
  | .SIGTERM => false

/-- How the process ends when a signal is delivered: a registered handler
runs to completion and calls process.exit with a status code, or — with no
handler registered — the runtime applies the default disposition and the
process is terminated by the signal at once, running none of the program's
code. -/
inductive SignalOutcome where
  | exitedNormally (s : BatcherState) (code : Nat)
  | killedBySignal (s : BatcherState)
  deriving DecidableEq, Repr

/-- True when the signal outcome is a normal, handler-driven exit. -/
def isNormalExit : SignalOutcome → Bool
  | .exitedNormally _ _ => true
  | .killedBySignal _ => false

/-- Delivery of a signal to the process with batcher state s. For SIGINT the
registered graceful-shutdown handler runs (stream.ts lines 88-92). For
SIGTERM there is no handler, so the default disposition terminates the
process: no flush runs, no delivery call is made, and there is no status-0
exit — the batcher state is abandoned as is. -/
def deliverSignal (sig : PosixSignal) (s : BatcherState) (deliveryOk : Bool) : SignalOutcome :=
  if handlerRegistered sig then
    let r := sigintHandler s deliveryOk
    .exitedNormally r.1 r.2
  else
    .killedBySignal s

namespace SimpleBatcher

theorem flushStart_empty (s : BatcherState) (h : s.batch = []) : flushStart s = s := by
  simp [flushStart, h]

theorem flushStart_of_ne (s : BatcherState) (h : s.batch ≠ []) :
    flushStart s =
      { s with batch := [], timer := none, scheduled := false,
               liveTimers := if s.scheduled then s.liveTimers - 1 else s.liveTimers,
               inFlight := s.inFlight ++ [s.batch],
               sent := s.sent ++ [s.batch] } := by
  have hl : s.batch.length ≠ 0 := by simpa using h
  by_cases hs : s.scheduled <;> simp [flushStart, clearPending, hl, hs]

theorem resetTimer_of_ne (s : BatcherState) (h : s.batch ≠ []) :
    resetTimer s =
      { s with timer := some (s.now + s.timeout), scheduled := true,
               liveTimers := (if s.scheduled then s.liveTimers - 1 else s.liveTimers) + 1 } := by
  have hl : 0 < s.batch.length := List.length_pos.mpr h
  by_cases hs : s.scheduled <;> simp [resetTimer, clearPending, hl, hs]

theorem add_below (s : BatcherState) (c : CastEvent) (h : s.batch.length + 1 < s.batchSize) :
    add s c = resetTimer { s with batch := s.batch ++ [c] } := by
  simp only [add]
  rw [if_neg]
  simp only [List.length_append, List.length_singleton]
  omega

theorem add_at_threshold (s : BatcherState) (c : CastEvent)
    (h : s.batch.length + 1 ≥ s.batchSize) :
    add s c = flushStart { s with batch := s.batch ++ [c] } := by
  simp only [add]
  rw [if_pos]
  simp only [List.length_append, List.length_singleton]
  omega

end SimpleBatcher

/-- Timer bookkeeping invariant: the runtime holds exactly one pending
timeout when the scheduled flag is set and none otherwise, and a pending
timeout implies a non-empty batch and a held handle. -/
def TimerInv (s : BatcherState) : Prop :=
  s.liveTimers = (if s.scheduled then 1 else 0) ∧
  (s.scheduled = true → s.batch ≠ [] ∧ s.timer.isSome = true)

theorem timerInv_init (bs t : Nat) : TimerInv (SimpleBatcher.init bs t) := by
  simp [TimerInv, SimpleBatcher.init]

theorem timerInv_applyAction (s : BatcherState) (a : BAction) (h : TimerInv s) :
    TimerInv (applyAction s a) := by
  obtain ⟨h1, h2⟩ := h
  cases a with
  | act_add c =>
      show TimerInv (SimpleBatcher.add s c)
      by_cases hth : s.batch.length + 1 ≥ s.batchSize
      · rw [SimpleBatcher.add_at_threshold s c hth,
          SimpleBatcher.flushStart_of_ne _ (by simp)]
        constructor
        · by_cases hs : s.scheduled <;> simp_all
        · simp
      · rw [SimpleBatcher.add_below s c (by omega),
          SimpleBatcher.resetTimer_of_ne _ (by simp)]
        constructor
        · by_cases hs : s.scheduled <;> simp_all
        · simp
  | act_timer =>
      show TimerInv (if s.scheduled then SimpleBatcher.fireTimer s else s)
      by_cases hs : s.scheduled
      · have hb : s.batch ≠ [] := (h2 hs).1
        rw [if_pos hs, SimpleBatcher.fireTimer,
          SimpleBatcher.flushStart_of_ne _ (by simpa using hb)]
        constructor
        · simp [h1, hs]
        · simp
      · rw [if_neg hs]
        exact ⟨h1, h2⟩
  | act_flush =>
      show TimerInv (SimpleBatcher.flushStart s)
      by_cases hb : s.batch = []
      · rw [SimpleBatcher.flushStart_empty s hb]
        exact ⟨h1, h2⟩
      · rw [SimpleBatcher.flushStart_of_ne s hb]
        constructor
        · by_cases hs : s.scheduled <;> simp_all
        · simp
  | act_ok i =>
      show TimerInv (SimpleBatcher.completeOk s i)
      rw [SimpleBatcher.completeOk]
      cases hm : s.inFlight[i]? with
      | none => exact ⟨h1, h2⟩
      | some b => exact ⟨h1, h2⟩
  | act_fail i =>
      show TimerInv (SimpleBatcher.completeFail s i)
      rw [SimpleBatcher.completeFail]
      cases hm : s.inFlight[i]? with
      | none => exact ⟨h1, h2⟩
      | some b =>
          refine ⟨h1, fun hs => ⟨?_, (h2 hs).2⟩⟩
          have hb : s.batch ≠ [] := (h2 hs).1
          simp [hb]
  | act_advance d =>
      show TimerInv { s with now := s.now + d }
      exact ⟨h1, h2⟩

theorem timerInv_run (acts : List BAction) :
    ∀ s : BatcherState, TimerInv s → TimerInv (run s acts) := by
  induction acts with
  | nil => intro s h; exact h
  | cons a rest ih =>
      intro s h
      exact ih (applyAction s a) (timerInv_applyAction s a h)

theorem flatten_eraseIdx (l : List (List CastEvent)) :
    ∀ (i : Nat) (b : List CastEvent), l[i]? = some b →
      (↑l.flatten : Multiset CastEvent) = (↑((l.eraseIdx i).flatten) : Multiset CastEvent) + ↑b := by
  induction l with
  | nil => intro i b h; simp at h
  | cons hd tl ih =>
      intro i b h
      cases i with
      | zero =>
          simp only [List.getElem?_cons_zero, Option.some.injEq] at h
          subst h
          simp only [List.eraseIdx_cons_zero, List.flatten_cons, ← Multiset.coe_add]
          exact add_comm _ _
      | succ j =>
          simp only [List.getElem?_cons_succ] at h
          simp only [List.eraseIdx_cons_succ, List.flatten_cons, ← Multiset.coe_add]
          rw [ih j b h]
          exact (add_assoc _ _ _).symm

theorem content_applyAction (s : BatcherState) (a : BAction)
    (h : ∀ i, a ≠ BAction.act_fail i) :
    content (applyAction s a) = content s + ↑(addedOf [a]) := by
  cases a with
  | act_add c =>
      show content (SimpleBatcher.add s c) = _
      have hadded : addedOf [BAction.act_add c] = [c] := by simp [addedOf]
      rw [hadded]
      by_cases hth : s.batch.length + 1 ≥ s.batchSize
      · rw [SimpleBatcher.add_at_threshold s c hth,
          SimpleBatcher.flushStart_of_ne _ (by simp)]
        simp only [content, List.flatten_append, List.flatten_cons, List.flatten_nil,
          List.append_nil, ← Multiset.coe_add]
        simp only [Multiset.coe_nil]
        abel
      · rw [SimpleBatcher.add_below s c (by omega),
          SimpleBatcher.resetTimer_of_ne _ (by simp)]
        simp only [content, ← Multiset.coe_add]
        abel
  | act_timer =>
      show content (if s.scheduled then SimpleBatcher.fireTimer s else s) = _
      have hadded : addedOf [BAction.act_timer] = [] := by simp [addedOf]
      rw [hadded]
      by_cases hs : s.scheduled
      · rw [if_pos hs, SimpleBatcher.fireTimer]
        by_cases hb : s.batch = []
        · rw [SimpleBatcher.flushStart_empty _ (by simpa using hb)]
          simp [content, hb]
        · rw [SimpleBatcher.flushStart_of_ne _ (by simpa using hb)]
          simp only [content, List.flatten_append, List.flatten_cons, List.flatten_nil,
            List.append_nil, ← Multiset.coe_add]
          simp only [Multiset.coe_nil]
          abel
      · rw [if_neg hs]; simp
  | act_flush =>
      show content (SimpleBatcher.flushStart s) = _
      have hadded : addedOf [BAction.act_flush] = [] := by simp [addedOf]
      rw [hadded]
      by_cases hb : s.batch = []
      · rw [SimpleBatcher.flushStart_empty s hb]; simp
      · rw [SimpleBatcher.flushStart_of_ne s hb]
        simp only [content, List.flatten_append, List.flatten_cons, List.flatten_nil,
          List.append_nil, ← Multiset.coe_add]
        simp only [Multiset.coe_nil]
        abel
  | act_ok i =>
      show content (SimpleBatcher.completeOk s i) = _
      have hadded : addedOf [BAction.act_ok i] = [] := by simp [addedOf]
      rw [hadded]
      rw [SimpleBatcher.completeOk]
      cases hm : s.inFlight[i]? with
      | none => simp
      | some b =>
          simp only [content, List.flatten_append, List.flatten_cons, List.flatten_nil,
            List.append_nil, ← Multiset.coe_add]
          rw [flatten_eraseIdx s.inFlight i b hm]
          simp only [Multiset.coe_nil]
          abel
  | act_fail i => exact absurd rfl (h i)
  | act_advance d =>
      show content { s with now := s.now + d } = _
      have hadded : addedOf [BAction.act_advance d] = [] := by simp [addedOf]
      rw [hadded]
      simp [content]

theorem content_run (acts : List BAction) :
    ∀ s : BatcherState, failFree acts = true →
      content (run s acts) = content s + ↑(addedOf acts) := by
  induction acts with
  | nil => intro s _; simp [run, addedOf]
  | cons a rest ih =>
      intro s hff
      have hfa : ∀ i, a ≠ BAction.act_fail i := by
        intro i hcontra
        subst hcontra
        simp [failFree] at hff
      have hfr : failFree rest = true := by
        simp only [failFree, List.all_cons, Bool.and_eq_true] at hff
        exact hff.2
      have hrun : run s (a :: rest) = run (applyAction s a) rest := rfl
      rw [hrun, ih (applyAction s a) hfr, content_applyAction s a hfa]
      have hsplit : addedOf (a :: rest) = addedOf [a] ++ addedOf rest := by
        simp [addedOf]
        cases a <;> simp
      rw [hsplit]
      simp only [← Multiset.coe_add]
      abel

theorem run_quiescent (acts : List BAction) :
    ∀ s : BatcherState, s.scheduled = false → s.inFlight = [] →
      noAddNoFlush acts = true →
      (run s acts).sent = s.sent ∧ (run s acts).batch = s.batch ∧
      (run s acts).scheduled = false ∧ (run s acts).inFlight = [] := by
  induction acts with
  | nil => intro s h1 h2 _; exact ⟨rfl, rfl, h1, h2⟩
  | cons a rest ih =>
      intro s h1 h2 hok
      have hrest : noAddNoFlush rest = true := by
        simp only [noAddNoFlush, List.all_cons, Bool.and_eq_true] at hok
        exact hok.2
      have hrun : run s (a :: rest) = run (applyAction s a) rest := rfl
      rw [hrun]
      cases a with
      | act_add c => simp [noAddNoFlush] at hok
      | act_flush => simp [noAddNoFlush] at hok
      | act_timer =>
          have hid : applyAction s BAction.act_timer = s := by
            show (if s.scheduled then SimpleBatcher.fireTimer s else s) = s
            rw [h1]; simp
          rw [hid]
          exact ih s h1 h2 hrest
      | act_ok i =>
          have hid : applyAction s (BAction.act_ok i) = s := by
            show SimpleBatcher.completeOk s i = s
            rw [SimpleBatcher.completeOk, h2]
            simp
          rw [hid]
          exact ih s h1 h2 hrest
      | act_fail i =>
          have hid : applyAction s (BAction.act_fail i) = s := by
            show SimpleBatcher.completeFail s i = s
            rw [SimpleBatcher.completeFail, h2]
            simp
          rw [hid]
          exact ih s h1 h2 hrest
      | act_advance d =>
          have h := ih { s with now := s.now + d } h1 h2 hrest
          exact h

theorem addAll_small (cs : List CastEvent) :
    ∀ s : BatcherState, s.batch.length + cs.length < s.batchSize →
      (addAll s cs).batch = s.batch ++ cs ∧
      (addAll s cs).sent = s.sent ∧
      (addAll s cs).inFlight = s.inFlight ∧
      (addAll s cs).delivered = s.delivered ∧
      (addAll s cs).batchSize = s.batchSize ∧
      (addAll s cs).timeout = s.timeout := by
  induction cs with
  | nil => intro s _; simp [addAll]
  | cons c rest ih =>
      intro s hlen
      have hstep : addAll s (c :: rest) = addAll (SimpleBatcher.add s c) rest := rfl
      have hbelow : SimpleBatcher.add s c = SimpleBatcher.resetTimer { s with batch := s.batch ++ [c] } :=
        SimpleBatcher.add_below s c (by simp at hlen; omega)
      have hne : ({ s with batch := s.batch ++ [c] } : BatcherState).batch ≠ [] := by simp
      rw [hstep, hbelow, SimpleBatcher.resetTimer_of_ne _ hne]
      have hlen2 : (SimpleBatcher.resetTimer { s with batch := s.batch ++ [c] }).batch.length + rest.length <
          (SimpleBatcher.resetTimer { s with batch := s.batch ++ [c] }).batchSize := by
        rw [SimpleBatcher.resetTimer_of_ne _ hne]
        simp at hlen ⊢
        omega
      rw [SimpleBatcher.resetTimer_of_ne _ hne] at hlen2
      obtain ⟨hb, hs, hf, hd, hbs, hto⟩ := ih _ hlen2
      refine ⟨?_, hs, hf, hd, hbs, hto⟩
      rw [hb]
      simp

theorem runTimedAdds_small (tcs : List (Nat × CastEvent)) :
    ∀ s : BatcherState, s.batch.length + tcs.length < s.batchSize →
      (runTimedAdds s tcs).batch = s.batch ++ tcs.map Prod.snd ∧
      (runTimedAdds s tcs).sent = s.sent ∧
      (runTimedAdds s tcs).inFlight = s.inFlight ∧
      (runTimedAdds s tcs).delivered = s.delivered ∧
      (runTimedAdds s tcs).batchSize = s.batchSize ∧
      (runTimedAdds s tcs).timeout = s.timeout ∧
      (runTimedAdds s tcs).timer =
        (match tcs.getLast? with
         | some tc => some (tc.1 + s.timeout)
         | none => s.timer) ∧
      (runTimedAdds s tcs).scheduled = (if tcs.isEmpty then s.scheduled else true) := by
  induction tcs with
  | nil => intro s _; simp [runTimedAdds]
  | cons tc rest ih =>
      intro s hlen
      obtain ⟨t, c⟩ := tc
      have hne : ({ s with now := t, batch := s.batch ++ [c] } : BatcherState).batch ≠ [] := by
        simp
      have hchar : SimpleBatcher.add { s with now := t } c =
          { s with now := t, batch := s.batch ++ [c],
                   timer := some (t + s.timeout), scheduled := true,
                   liveTimers := (if s.scheduled then s.liveTimers - 1 else s.liveTimers) + 1 } := by
        rw [SimpleBatcher.add_below _ c (by simp at hlen ⊢; omega),
          SimpleBatcher.resetTimer_of_ne _ hne]
      have hlen1 : (SimpleBatcher.add { s with now := t } c).batch.length + rest.length <
          (SimpleBatcher.add { s with now := t } c).batchSize := by
        rw [hchar]
        simp at hlen ⊢
        omega
      obtain ⟨hb, hsent, hf, hd, hbs, hto, htimer, hsched⟩ := ih _ hlen1
      rw [hchar] at hb hsent hf hd hbs hto htimer hsched
      simp only at hb hsent hf hd hbs hto htimer hsched
      have hstep : runTimedAdds s ((t, c) :: rest) =
          runTimedAdds (SimpleBatcher.add { s with now := t } c) rest := rfl
      rw [hstep, hchar]
      refine ⟨?_, hsent, hf, hd, hbs, hto, ?_, ?_⟩
      · rw [hb]; simp
      · rw [htimer]
        cases rest with
        | nil => simp
        | cons r rs =>
            simp only [List.getLast?_cons_cons]
            cases hgl : (r :: rs).getLast? with
            | none =>
                rw [List.getLast?_eq_none_iff] at hgl
                cases hgl
            | some x => rfl
      · rw [hsched]
        cases rest with
        | nil => simp
        | cons r rs => simp

theorem runLoop_error_running (bs : List UpstreamBehavior) :
    ∀ st : LoopState, st = LoopState.running →
      (∀ b ∈ bs, isErrorBehavior b = true) → bs.foldl stepLoop st = LoopState.running := by
  induction bs with
  | nil => intro st hst _; simpa using hst
  | cons b rest ih =>
      intro st hst hall
      subst hst
      have hb : isErrorBehavior b = true := hall b (by simp)
      have hstep : stepLoop LoopState.running b = LoopState.running := by
        cases b with
        | readyError => rfl
        | subscribeRejected => rfl
        | subscribeThrows => rfl
        | streamEvents evs raisesAfter =>
            cases raisesAfter with
            | false => simp [isErrorBehavior] at hb
            | true => rfl
      show List.foldl stepLoop (stepLoop LoopState.running b) rest = LoopState.running
      rw [hstep]
      exact ih LoopState.running rfl (fun x hx => hall x (by simp [hx]))

/-- Claim C1: for every flush of a non-empty pending batch, flush swaps the
pending batch for an empty one before starting the delivery network call
(the in-flight payload is the old batch and the pending batch is empty);
events added while a call is in flight go only to the fresh pending batch;
over any failure-free action sequence the events held in the pending batch,
the in-flight calls and the successful deliveries are exactly the events
added, with multiplicity, so none is lost or duplicated; and a flush of an
empty pending batch performs no delivery call and leaves the state
unchanged. -/
theorem claim_C1 :
    (∀ s : BatcherState, s.batch = [] → SimpleBatcher.flushStart s = s) ∧
    (∀ s : BatcherState, s.batch ≠ [] →
      (SimpleBatcher.flushStart s).batch = [] ∧
      (SimpleBatcher.flushStart s).sent = s.sent ++ [s.batch] ∧
      (SimpleBatcher.flushStart s).inFlight = s.inFlight ++ [s.batch]) ∧
    (∀ (s : BatcherState) (c : CastEvent), s.batch.length + 1 < s.batchSize →
      (SimpleBatcher.add s c).inFlight = s.inFlight ∧
      (SimpleBatcher.add s c).sent = s.sent ∧
      (SimpleBatcher.add s c).batch = s.batch ++ [c]) ∧
    (∀ (s : BatcherState) (acts : List BAction), failFree acts = true →
      content (run s acts) = content s + ↑(addedOf acts)) := by
  refine ⟨?_, ?_, ?_, ?_⟩
  · intro s h
    exact SimpleBatcher.flushStart_empty s h
  · intro s h
    rw [SimpleBatcher.flushStart_of_ne s h]
    exact ⟨rfl, rfl, rfl⟩
  · intro s c h
    rw [SimpleBatcher.add_below s c h, SimpleBatcher.resetTimer_of_ne _ (by simp)]
    exact ⟨rfl, rfl, rfl⟩
  · intro s acts h
    exact content_run acts s h

/-- Witness for C1 at concrete states: an empty flush is the identity, a
flush of a two-event batch swaps and sends it, an add below the threshold
touches only the pending batch, and a concrete failure-free action sequence
conserves the event multiset. -/
theorem claim_C1_witness :
    (SimpleBatcher.flushStart (SimpleBatcher.init 20 5000) = SimpleBatcher.init 20 5000) ∧
    ((SimpleBatcher.flushStart { SimpleBatcher.init 20 5000 with batch := [ev 1, ev 2] }).batch = [] ∧
      (SimpleBatcher.flushStart { SimpleBatcher.init 20 5000 with batch := [ev 1, ev 2] }).sent =
        ({ SimpleBatcher.init 20 5000 with batch := [ev 1, ev 2] } : BatcherState).sent ++ [[ev 1, ev 2]] ∧
      (SimpleBatcher.flushStart { SimpleBatcher.init 20 5000 with batch := [ev 1, ev 2] }).inFlight =
        ({ SimpleBatcher.init 20 5000 with batch := [ev 1, ev 2] } : BatcherState).inFlight ++ [[ev 1, ev 2]]) ∧
    ((SimpleBatcher.add { SimpleBatcher.init 20 5000 with batch := [ev 1, ev 2] } (ev 3)).inFlight =
        ({ SimpleBatcher.init 20 5000 with batch := [ev 1, ev 2] } : BatcherState).inFlight ∧
      (SimpleBatcher.add { SimpleBatcher.init 20 5000 with batch := [ev 1, ev 2] } (ev 3)).sent =
        ({ SimpleBatcher.init 20 5000 with batch := [ev 1, ev 2] } : BatcherState).sent ∧
      (SimpleBatcher.add { SimpleBatcher.init 20 5000 with batch := [ev 1, ev 2] } (ev 3)).batch =
        [ev 1, ev 2] ++ [ev 3]) ∧
    content (run (SimpleBatcher.init 20 5000)
        [BAction.act_add (ev 1), BAction.act_flush, BAction.act_ok 0, BAction.act_add (ev 2)]) =
      content (SimpleBatcher.init 20 5000) +
        ↑(addedOf [BAction.act_add (ev 1), BAction.act_flush, BAction.act_ok 0, BAction.act_add (ev 2)]) :=
  ⟨claim_C1.1 _ rfl,
   claim_C1.2.1 _ (by decide),
   claim_C1.2.2.1 _ (ev 3) (by decide),
   claim_C1.2.2.2 _ _ (by decide)⟩

/-- Claim C2: when the delivery call carrying batch b fails, exactly the
first min(n, 10) records of b, in their original order, are re-inserted at
the front of the (possibly repopulated) pending batch; the records beyond
the cap leave the system (the event multiset shrinks by exactly the dropped
tail); no new delivery is attempted by the failure handler; and the failure
is swallowed (completeFail is a total function on states, the catch block
never rethrows). -/
theorem claim_C2 (s : BatcherState) (i : Nat) (b : List CastEvent)
    (h : s.inFlight[i]? = some b) :
    (SimpleBatcher.completeFail s i).batch = b.take 10 ++ s.batch ∧
    (b.take 10).length = min b.length 10 ∧
    (∀ j : Nat, j < 10 → (b.take 10)[j]? = b[j]?) ∧
    (SimpleBatcher.completeFail s i).sent = s.sent ∧
    (SimpleBatcher.completeFail s i).delivered = s.delivered ∧
    (SimpleBatcher.completeFail s i).inFlight = s.inFlight.eraseIdx i ∧
    content (SimpleBatcher.completeFail s i) + ↑(b.drop 10) = content s := by
  have hc : SimpleBatcher.completeFail s i =
      { s with inFlight := s.inFlight.eraseIdx i, batch := b.take 10 ++ s.batch } := by
    rw [SimpleBatcher.completeFail, h]
  refine ⟨by rw [hc], ?_, ?_, by rw [hc], by rw [hc], by rw [hc], ?_⟩
  · rw [List.length_take]
    omega
  · intro j hj
    rw [List.getElem?_take]
    simp [hj]
  · rw [hc]
    simp only [content, ← Multiset.coe_add]
    rw [flatten_eraseIdx s.inFlight i b h]
    have hsplit : (↑(b.take 10) : Multiset CastEvent) + ↑(b.drop 10) = ↑b := by
      rw [Multiset.coe_add]
      congr 1
      exact List.take_append_drop 10 b
    calc (↑(b.take 10 ++ s.batch) : Multiset CastEvent) +
          ↑(s.inFlight.eraseIdx i).flatten + ↑s.delivered.flatten + ↑(b.drop 10)
        = (↑(b.take 10) + ↑(b.drop 10)) + (↑s.batch +
            ↑(s.inFlight.eraseIdx i).flatten + ↑s.delivered.flatten) := by
          simp only [← Multiset.coe_add]
          abel
      _ = ↑s.batch + (↑(s.inFlight.eraseIdx i).flatten + ↑b) + ↑s.delivered.flatten := by
          rw [hsplit]
          abel

/-- Witness for C2: a failed delivery of a 12-event batch puts back exactly
its first 10 events, in order, in front of the pending event, and drops the
last 2. -/
theorem claim_C2_witness :
    ((SimpleBatcher.completeFail
        { SimpleBatcher.init 20 5000 with batch := [ev 99], inFlight := [(List.range 12).map ev] } 0).batch =
      ((List.range 12).map ev).take 10 ++ [ev 99] ∧
    (((List.range 12).map ev).take 10).length = min ((List.range 12).map ev).length 10 ∧
    (∀ j : Nat, j < 10 → (((List.range 12).map ev).take 10)[j]? = ((List.range 12).map ev)[j]?) ∧
    (SimpleBatcher.completeFail
        { SimpleBatcher.init 20 5000 with batch := [ev 99], inFlight := [(List.range 12).map ev] } 0).sent =
      ({ SimpleBatcher.init 20 5000 with batch := [ev 99], inFlight := [(List.range 12).map ev] } : BatcherState).sent ∧
    (SimpleBatcher.completeFail
        { SimpleBatcher.init 20 5000 with batch := [ev 99], inFlight := [(List.range 12).map ev] } 0).delivered =
      ({ SimpleBatcher.init 20 5000 with batch := [ev 99], inFlight := [(List.range 12).map ev] } : BatcherState).delivered ∧
    (SimpleBatcher.completeFail
        { SimpleBatcher.init 20 5000 with batch := [ev 99], inFlight := [(List.range 12).map ev] } 0).inFlight =
      ([(List.range 12).map ev] : List (List CastEvent)).eraseIdx 0 ∧
    content (SimpleBatcher.completeFail
        { SimpleBatcher.init 20 5000 with batch := [ev 99], inFlight := [(List.range 12).map ev] } 0) +
        ↑(((List.range 12).map ev).drop 10) =
      content { SimpleBatcher.init 20 5000 with batch := [ev 99], inFlight := [(List.range 12).map ev] }) :=
  claim_C2 _ 0 _ (by decide)

/-- Claim C3: starting from a fresh batcher with the default configuration,
adding BATCH_SIZE events back to back (no timer fires in between) produces
exactly one delivery call whose payload is exactly those events, and the
pending batch is empty immediately after the triggering add; the call is
still in flight since add does not await it. -/
theorem claim_C3 (cs : List CastEvent) (hlen : cs.length = BATCH_SIZE) :
    (addAll (SimpleBatcher.init BATCH_SIZE BATCH_TIMEOUT) cs).sent = [cs] ∧
    (addAll (SimpleBatcher.init BATCH_SIZE BATCH_TIMEOUT) cs).batch = [] ∧
    (addAll (SimpleBatcher.init BATCH_SIZE BATCH_TIMEOUT) cs).inFlight = [cs] := by
  rcases List.eq_nil_or_concat cs with rfl | ⟨ds, d, rfl⟩
  · simp [BATCH_SIZE] at hlen
  · simp only [List.concat_eq_append] at hlen ⊢
    have hds : ds.length = 19 := by
      simp only [List.length_append, List.length_singleton, BATCH_SIZE] at hlen
      omega
    have hsmall : (SimpleBatcher.init BATCH_SIZE BATCH_TIMEOUT).batch.length + ds.length <
        (SimpleBatcher.init BATCH_SIZE BATCH_TIMEOUT).batchSize := by
      simp [SimpleBatcher.init, BATCH_SIZE, hds]
    obtain ⟨hb, hs, hf, hd2, hbs, hto⟩ := addAll_small ds _ hsmall
    have hbatch : (addAll (SimpleBatcher.init BATCH_SIZE BATCH_TIMEOUT) ds).batch = ds := by
      rw [hb]
      simp [SimpleBatcher.init]
    have hsent : (addAll (SimpleBatcher.init BATCH_SIZE BATCH_TIMEOUT) ds).sent = [] := by
      rw [hs]
      rfl
    have hinf : (addAll (SimpleBatcher.init BATCH_SIZE BATCH_TIMEOUT) ds).inFlight = [] := by
      rw [hf]
      rfl
    have hbsz : (addAll (SimpleBatcher.init BATCH_SIZE BATCH_TIMEOUT) ds).batchSize = BATCH_SIZE := by
      rw [hbs]
      rfl
    have hfold : addAll (SimpleBatcher.init BATCH_SIZE BATCH_TIMEOUT) (ds ++ [d]) =
        SimpleBatcher.add (addAll (SimpleBatcher.init BATCH_SIZE BATCH_TIMEOUT) ds) d := by
      simp [addAll, List.foldl_append]
    have hth : (addAll (SimpleBatcher.init BATCH_SIZE BATCH_TIMEOUT) ds).batch.length + 1 ≥
        (addAll (SimpleBatcher.init BATCH_SIZE BATCH_TIMEOUT) ds).batchSize := by
      rw [hbatch, hbsz, hds]
      norm_num [BATCH_SIZE]
    rw [hfold, SimpleBatcher.add_at_threshold _ d hth,
      SimpleBatcher.flushStart_of_ne _ (by simp)]
    refine ⟨?_, rfl, ?_⟩
    · show (addAll (SimpleBatcher.init BATCH_SIZE BATCH_TIMEOUT) ds).sent ++
        [(addAll (SimpleBatcher.init BATCH_SIZE BATCH_TIMEOUT) ds).batch ++ [d]] = [ds ++ [d]]
      rw [hsent, hbatch]
      rfl
    · show (addAll (SimpleBatcher.init BATCH_SIZE BATCH_TIMEOUT) ds).inFlight ++
        [(addAll (SimpleBatcher.init BATCH_SIZE BATCH_TIMEOUT) ds).batch ++ [d]] = [ds ++ [d]]
      rw [hinf, hbatch]
      rfl

/-- Witness for C3 at the concrete list of events 0..19. -/
theorem claim_C3_witness :
    ((List.range 20).map ev).length = BATCH_SIZE ∧
    (addAll (SimpleBatcher.init BATCH_SIZE BATCH_TIMEOUT) ((List.range 20).map ev)).sent =
      [(List.range 20).map ev] ∧
    (addAll (SimpleBatcher.init BATCH_SIZE BATCH_TIMEOUT) ((List.range 20).map ev)).batch = [] ∧
    (addAll (SimpleBatcher.init BATCH_SIZE BATCH_TIMEOUT) ((List.range 20).map ev)).inFlight =
      [(List.range 20).map ev] :=
  ⟨by decide, claim_C3 ((List.range 20).map ev) (by decide)⟩

/-- Claim C4: starting from a fresh batcher, a non-empty sequence of fewer
than BATCH_SIZE timed adds, each arriving before the idle window of the
previous one expires, produces no delivery during the adds, leaves exactly
those events pending, and leaves one armed timer whose deadline is
BATCH_TIMEOUT after the last add (each add having re-armed the window);
firing that timer produces exactly one delivery call containing exactly
those events. -/
theorem claim_C4 (tcs : List (Nat × CastEvent)) (hne : tcs ≠ [])
    (hlen : tcs.length < BATCH_SIZE) (_hgaps : gapsOk BATCH_TIMEOUT tcs = true)
    (tl : Nat) (cl : CastEvent) (hlast : tcs.getLast? = some (tl, cl)) :
    (runTimedAdds (SimpleBatcher.init BATCH_SIZE BATCH_TIMEOUT) tcs).sent = [] ∧
    (runTimedAdds (SimpleBatcher.init BATCH_SIZE BATCH_TIMEOUT) tcs).batch = tcs.map Prod.snd ∧
    (runTimedAdds (SimpleBatcher.init BATCH_SIZE BATCH_TIMEOUT) tcs).timer =
      some (tl + BATCH_TIMEOUT) ∧
    (runTimedAdds (SimpleBatcher.init BATCH_SIZE BATCH_TIMEOUT) tcs).scheduled = true ∧
    (SimpleBatcher.fireTimer (runTimedAdds (SimpleBatcher.init BATCH_SIZE BATCH_TIMEOUT) tcs)).sent =
      [tcs.map Prod.snd] ∧
    (SimpleBatcher.fireTimer (runTimedAdds (SimpleBatcher.init BATCH_SIZE BATCH_TIMEOUT) tcs)).batch =
      [] := by
  have hsmall : (SimpleBatcher.init BATCH_SIZE BATCH_TIMEOUT).batch.length + tcs.length <
      (SimpleBatcher.init BATCH_SIZE BATCH_TIMEOUT).batchSize := by
    simpa [SimpleBatcher.init] using hlen
  obtain ⟨hb, hs, hf, hd, hbs, hto, htimer, hsched⟩ := runTimedAdds_small tcs _ hsmall
  have hbatch : (runTimedAdds (SimpleBatcher.init BATCH_SIZE BATCH_TIMEOUT) tcs).batch =
      tcs.map Prod.snd := by
    rw [hb]
    rfl
  have hsent : (runTimedAdds (SimpleBatcher.init BATCH_SIZE BATCH_TIMEOUT) tcs).sent = [] := by
    rw [hs]
    rfl
  have hinf : (runTimedAdds (SimpleBatcher.init BATCH_SIZE BATCH_TIMEOUT) tcs).inFlight = [] := by
    rw [hf]
    rfl
  have htimer2 : (runTimedAdds (SimpleBatcher.init BATCH_SIZE BATCH_TIMEOUT) tcs).timer =
      some (tl + BATCH_TIMEOUT) := by
    rw [htimer, hlast]
    rfl
  have hsched2 : (runTimedAdds (SimpleBatcher.init BATCH_SIZE BATCH_TIMEOUT) tcs).scheduled = true := by
    rw [hsched]
    simp [hne]
  have hmapne : tcs.map Prod.snd ≠ [] := by
    simpa using hne
  refine ⟨hsent, hbatch, htimer2, hsched2, ?_, ?_⟩
  · rw [SimpleBatcher.fireTimer,
      SimpleBatcher.flushStart_of_ne _ (by simpa [hbatch] using hmapne)]
    show (runTimedAdds (SimpleBatcher.init BATCH_SIZE BATCH_TIMEOUT) tcs).sent ++
      [(runTimedAdds (SimpleBatcher.init BATCH_SIZE BATCH_TIMEOUT) tcs).batch] = [tcs.map Prod.snd]
    rw [hsent, hbatch]
    rfl
  · rw [SimpleBatcher.fireTimer,
      SimpleBatcher.flushStart_of_ne _ (by simpa [hbatch] using hmapne)]

/-- Witness for C4: three adds at times 0, 100 and 4000, each within the
5000 ms window of the previous one; the armed deadline is 9000 = 4000 + 5000,
measured from the last add, and firing it delivers the three events. -/
theorem claim_C4_witness :
    ([(0, ev 0), (100, ev 1), (4000, ev 2)] : List (Nat × CastEvent)) ≠ [] ∧
    ([(0, ev 0), (100, ev 1), (4000, ev 2)] : List (Nat × CastEvent)).length < BATCH_SIZE ∧
    gapsOk BATCH_TIMEOUT [(0, ev 0), (100, ev 1), (4000, ev 2)] = true ∧
    (runTimedAdds (SimpleBatcher.init BATCH_SIZE BATCH_TIMEOUT)
        [(0, ev 0), (100, ev 1), (4000, ev 2)]).sent = [] ∧
    (runTimedAdds (SimpleBatcher.init BATCH_SIZE BATCH_TIMEOUT)
        [(0, ev 0), (100, ev 1), (4000, ev 2)]).batch = [ev 0, ev 1, ev 2] ∧
    (runTimedAdds (SimpleBatcher.init BATCH_SIZE BATCH_TIMEOUT)
        [(0, ev 0), (100, ev 1), (4000, ev 2)]).timer = some (4000 + BATCH_TIMEOUT) ∧
    (runTimedAdds (SimpleBatcher.init BATCH_SIZE BATCH_TIMEOUT)
        [(0, ev 0), (100, ev 1), (4000, ev 2)]).scheduled = true ∧
    (SimpleBatcher.fireTimer (runTimedAdds (SimpleBatcher.init BATCH_SIZE BATCH_TIMEOUT)
        [(0, ev 0), (100, ev 1), (4000, ev 2)])).sent = [[ev 0, ev 1, ev 2]] ∧
    (SimpleBatcher.fireTimer (runTimedAdds (SimpleBatcher.init BATCH_SIZE BATCH_TIMEOUT)
        [(0, ev 0), (100, ev 1), (4000, ev 2)])).batch = [] := by
  have h := claim_C4 [(0, ev 0), (100, ev 1), (4000, ev 2)] (by decide) (by decide) (by decide)
    4000 (ev 2) (by decide)
  exact ⟨by decide, by decide, by decide, h.1, h.2.1, h.2.2.1, h.2.2.2.1, h.2.2.2.2.1, h.2.2.2.2.2⟩

/-- Claim C5: in every state reachable by any sequence of adds, flushes,
timer callbacks, network responses and clock advances, the runtime holds at
most one live idle timer, a live idle timer implies a non-empty pending
batch, and an empty pending batch implies no live idle timer. -/
theorem claim_C5 (bs t : Nat) (s : BatcherState) (h : Reachable bs t s) :
    s.liveTimers ≤ 1 ∧ (1 ≤ s.liveTimers → s.batch ≠ []) ∧
    (s.batch = [] → s.liveTimers = 0) := by
  obtain ⟨acts, rfl⟩ := h
  obtain ⟨h1, h2⟩ := timerInv_run acts (SimpleBatcher.init bs t) (timerInv_init bs t)
  by_cases hs : (run (SimpleBatcher.init bs t) acts).scheduled
  · obtain ⟨hb, -⟩ := h2 hs
    refine ⟨by simp [h1, hs], fun _ => hb, fun hcontra => absurd hcontra hb⟩
  · have h0 : (run (SimpleBatcher.init bs t) acts).liveTimers = 0 := by
      simp [h1, hs]
    refine ⟨by omega, fun hge => by omega, fun _ => h0⟩

/-- Witness for C5 at a concrete reachable state: one add followed by a
clock advance reaches a state with an armed timer, which indeed has exactly
one live timer and a non-empty batch. -/
theorem claim_C5_witness :
    Reachable 20 5000 (run (SimpleBatcher.init 20 5000)
      [BAction.act_add (ev 7), BAction.act_advance 100]) ∧
    ((run (SimpleBatcher.init 20 5000)
        [BAction.act_add (ev 7), BAction.act_advance 100]).liveTimers ≤ 1 ∧
      (1 ≤ (run (SimpleBatcher.init 20 5000)
        [BAction.act_add (ev 7), BAction.act_advance 100]).liveTimers →
        (run (SimpleBatcher.init 20 5000)
          [BAction.act_add (ev 7), BAction.act_advance 100]).batch ≠ []) ∧
      ((run (SimpleBatcher.init 20 5000)
          [BAction.act_add (ev 7), BAction.act_advance 100]).batch = [] →
        (run (SimpleBatcher.init 20 5000)
          [BAction.act_add (ev 7), BAction.act_advance 100]).liveTimers = 0)) :=
  ⟨⟨[BAction.act_add (ev 7), BAction.act_advance 100], rfl⟩,
   claim_C5 20 5000 _ ⟨[BAction.act_add (ev 7), BAction.act_advance 100], rfl⟩⟩

/-- Counterexample to C6 as stated: a connect-stage error (waitForReady
reports an error, covering the readiness deadline expiry and connection
errors the claim names) rejects the promise before the try/finally is
entered, so client.close() never runs — the connection handle is not closed
at that stage, contradicting the claim that it is closed for every error. -/
theorem claim_C6_counterexample :
    (connectAttempt UpstreamBehavior.readyError 0).closedClient = false ∧
    iterationOutcome UpstreamBehavior.readyError 0 = LoopStep.retryAfterMs 10000 := by
  exact ⟨rfl, rfl⟩

/-- Claim C6 as amended: every error at any stage (connect, subscribe or
mid-stream) is caught and followed by a retry of the whole sequence after a
fixed 10000 ms delay, the loop keeps running through any sequence of
erroring attempts (no maximum attempt count, no exit), and the connection
handle is closed for every error except a connect-stage (readiness) error,
where the callback returns before the close-running finally block. -/
theorem claim_C6_amended :
    (∀ (b : UpstreamBehavior) (n : Nat), isErrorBehavior b = true →
      iterationOutcome b n = LoopStep.retryAfterMs 10000 ∧
      (connectAttempt b n).closedClient = !isReadyError b) ∧
    (∀ bs : List UpstreamBehavior, (∀ b ∈ bs, isErrorBehavior b = true) →
      runLoop bs = LoopState.running) := by
  constructor
  · intro b n hb
    cases b with
    | readyError => exact ⟨rfl, rfl⟩
    | subscribeRejected => exact ⟨rfl, rfl⟩
    | subscribeThrows => exact ⟨rfl, rfl⟩
    | streamEvents evs raisesAfter =>
        cases raisesAfter with
        | false => simp [isErrorBehavior] at hb
        | true =>
            refine ⟨?_, rfl⟩
            simp [iterationOutcome, connectAttempt]
  · intro bs hall
    exact runLoop_error_running bs LoopState.running rfl hall

/-- Witness for the amended C6: a mid-stream error forwards its events,
closes the client and retries after 10 s, and a run of three erroring
attempts leaves the loop still running. -/
theorem claim_C6_amended_witness :
    isErrorBehavior (UpstreamBehavior.streamEvents [{ message := some { type := 1, fid := 42 } }] true) = true ∧
    (iterationOutcome (UpstreamBehavior.streamEvents [{ message := some { type := 1, fid := 42 } }] true) 0 =
        LoopStep.retryAfterMs 10000 ∧
      (connectAttempt (UpstreamBehavior.streamEvents [{ message := some { type := 1, fid := 42 } }] true) 0).closedClient =
        !isReadyError (UpstreamBehavior.streamEvents [{ message := some { type := 1, fid := 42 } }] true)) ∧
    (∀ b ∈ ([UpstreamBehavior.readyError, UpstreamBehavior.subscribeRejected,
        UpstreamBehavior.streamEvents [] true] : List UpstreamBehavior), isErrorBehavior b = true) ∧
    runLoop [UpstreamBehavior.readyError, UpstreamBehavior.subscribeRejected,
        UpstreamBehavior.streamEvents [] true] = LoopState.running :=
  ⟨by decide,
   claim_C6_amended.1 (UpstreamBehavior.streamEvents [{ message := some { type := 1, fid := 42 } }] true) 0 (by decide),
   by decide,
   claim_C6_amended.2 _ (by decide)⟩

/-- Behavior of the registered SIGINT handler (stream.ts lines 88-92) from a
state with a non-empty pending batch and nothing previously sent or in
flight: exactly one delivery call carrying exactly the pending events, the
call completed (with either outcome) before exit because the handler awaits
the flush, and exit status 0. -/
theorem sigintHandler_spec (s : BatcherState) (ok : Bool) (hne : s.batch ≠ [])
    (hsent : s.sent = []) (hinf : s.inFlight = []) :
    (sigintHandler s ok).1.sent = [s.batch] ∧
    (sigintHandler s ok).1.inFlight = [] ∧
    (sigintHandler s ok).2 = 0 := by
  have hl : ¬ (s.batch.length = 0) := by simpa using hne
  have hflush := SimpleBatcher.flushStart_of_ne s hne
  have hfsent : (SimpleBatcher.flushStart s).sent = [s.batch] := by
    rw [hflush]
    show s.sent ++ [s.batch] = [s.batch]
    rw [hsent]
    rfl
  have hfinf : (SimpleBatcher.flushStart s).inFlight = [s.batch] := by
    rw [hflush]
    show s.inFlight ++ [s.batch] = [s.batch]
    rw [hinf]
    rfl
  have hidx : (SimpleBatcher.flushStart s).inFlight[(SimpleBatcher.flushStart s).inFlight.length - 1]? =
      some s.batch := by
    rw [hfinf]
    rfl
  refine ⟨?_, ?_, rfl⟩
  · show (if s.batch.length = 0 then SimpleBatcher.flushStart s
      else if ok then SimpleBatcher.completeOk (SimpleBatcher.flushStart s) ((SimpleBatcher.flushStart s).inFlight.length - 1)
      else SimpleBatcher.completeFail (SimpleBatcher.flushStart s) ((SimpleBatcher.flushStart s).inFlight.length - 1)).sent = [s.batch]
    rw [if_neg hl]
    cases ok with
    | true =>
        rw [if_pos rfl, SimpleBatcher.completeOk, hidx]
        exact hfsent
    | false =>
        rw [if_neg Bool.false_ne_true, SimpleBatcher.completeFail, hidx]
        exact hfsent
  · show (if s.batch.length = 0 then SimpleBatcher.flushStart s
      else if ok then SimpleBatcher.completeOk (SimpleBatcher.flushStart s) ((SimpleBatcher.flushStart s).inFlight.length - 1)
      else SimpleBatcher.completeFail (SimpleBatcher.flushStart s) ((SimpleBatcher.flushStart s).inFlight.length - 1)).inFlight = []
    rw [if_neg hl]
    cases ok with
    | true =>
        rw [if_pos rfl, SimpleBatcher.completeOk, hidx]
        show (SimpleBatcher.flushStart s).inFlight.eraseIdx _ = []
        rw [hfinf]
        rfl
    | false =>
        rw [if_neg Bool.false_ne_true, SimpleBatcher.completeFail, hidx]
        show (SimpleBatcher.flushStart s).inFlight.eraseIdx _ = []
        rw [hfinf]
        rfl

/-- Counterexample to C7 as stated: the claim covers interrupt and
termination signals, but the program registers a handler for SIGINT only.
Delivered a SIGTERM with five events pending and no timer yet fired, the
process is killed by the default disposition: no flush runs, no delivery
call is made (the abandoned state still has an empty sent log), and the end
is not a normal status-0 exit. -/
theorem claim_C7_counterexample :
    handlerRegistered PosixSignal.SIGTERM = false ∧
    deliverSignal PosixSignal.SIGTERM
        { SimpleBatcher.init 20 5000 with batch := (List.range 5).map ev } true =
      SignalOutcome.killedBySignal
        { SimpleBatcher.init 20 5000 with batch := (List.range 5).map ev } ∧
    isNormalExit (deliverSignal PosixSignal.SIGTERM
        { SimpleBatcher.init 20 5000 with batch := (List.range 5).map ev } true) = false ∧
    ({ SimpleBatcher.init 20 5000 with batch := (List.range 5).map ev } : BatcherState).sent = [] := by
  refine ⟨?_, ?_, ?_, ?_⟩ <;> decide

/-- Claim C7 as amended: on receiving SIGINT — the one signal the program
registers a handler for — with k events pending, nothing previously sent or
in flight and no timer yet fired, the handler performs exactly one delivery
call containing those k events, completed before exit, and the process
exits with status 0; on SIGTERM no handler is registered, so the default
disposition kills the process with no flush, no delivery call and no
status-0 exit. -/
theorem claim_C7_amended (s : BatcherState) (ok : Bool) (hne : s.batch ≠ [])
    (hsent : s.sent = []) (hinf : s.inFlight = []) :
    (deliverSignal PosixSignal.SIGINT s ok =
        SignalOutcome.exitedNormally (sigintHandler s ok).1 0 ∧
      (sigintHandler s ok).1.sent = [s.batch] ∧
      (sigintHandler s ok).1.inFlight = [] ∧
      (sigintHandler s ok).2 = 0) ∧
    (handlerRegistered PosixSignal.SIGTERM = false ∧
      deliverSignal PosixSignal.SIGTERM s ok = SignalOutcome.killedBySignal s) := by
  obtain ⟨h1, h2, h3⟩ := sigintHandler_spec s ok hne hsent hinf
  refine ⟨⟨?_, h1, h2, h3⟩, rfl, rfl⟩
  show SignalOutcome.exitedNormally (sigintHandler s ok).1 (sigintHandler s ok).2 =
    SignalOutcome.exitedNormally (sigintHandler s ok).1 0
  rw [h3]

/-- Witness for the amended C7: the scenario of the spec, five pending
events and no timer yet fired, with a successful delivery on SIGINT. -/
theorem claim_C7_amended_witness :
    (deliverSignal PosixSignal.SIGINT
        { SimpleBatcher.init 20 5000 with batch := (List.range 5).map ev } true =
        SignalOutcome.exitedNormally
          (sigintHandler { SimpleBatcher.init 20 5000 with batch := (List.range 5).map ev } true).1 0 ∧
      (sigintHandler { SimpleBatcher.init 20 5000 with batch := (List.range 5).map ev } true).1.sent =
        [(List.range 5).map ev] ∧
      (sigintHandler { SimpleBatcher.init 20 5000 with batch := (List.range 5).map ev } true).1.inFlight = [] ∧
      (sigintHandler { SimpleBatcher.init 20 5000 with batch := (List.range 5).map ev } true).2 = 0) ∧
    (handlerRegistered PosixSignal.SIGTERM = false ∧
      deliverSignal PosixSignal.SIGTERM
          { SimpleBatcher.init 20 5000 with batch := (List.range 5).map ev } true =
        SignalOutcome.killedBySignal
          { SimpleBatcher.init 20 5000 with batch := (List.range 5).map ev }) :=
  claim_C7_amended _ true (by decide) rfl rfl

/-- Claim C8: when the mandatory upstream credential is absent at startup
(unset, or the empty string, which the falsiness test also catches), the
process exits with status 1 — a non-zero status — before any connection is
created, so no connect, subscribe or delivery can occur in that run. -/
theorem claim_C8 :
    startupCheck none = StartupResult.exitedStartup 1 ∧
    startupCheck (some "") = StartupResult.exitedStartup 1 ∧
    (1 : Nat) ≠ 0 ∧
    startedConnection (startupCheck none) = false ∧
    startedConnection (startupCheck (some "")) = false := by
  exact ⟨rfl, rfl, one_ne_zero, rfl, rfl⟩

/-- Counterexample to C9 as stated: with 19 events pending, the add that
reaches the size threshold returns with the delivery network call still in
flight and nothing yet delivered — the fetch is started but not awaited by
add (stream.ts line 36 calls this.flush() without await inside a
non-async method), so add does not complete only after the delivery attempt
has finished. -/
theorem claim_C9_counterexample :
    (SimpleBatcher.add s19 (ev 19)).inFlight = [batch19 ++ [ev 19]] ∧
    (SimpleBatcher.add s19 (ev 19)).inFlight ≠ [] ∧
    (SimpleBatcher.add s19 (ev 19)).delivered = [] := by
  refine ⟨?_, ?_, ?_⟩ <;> decide

/-- Claim C9 as amended: an add that reaches the size threshold runs the
synchronous part of flush before returning — the batch is swapped out and
the delivery call started — but the network call is not awaited: when add
returns the call is still in flight and no delivery has completed; a
timer-triggered flush likewise completes no delivery within the callback. -/
theorem claim_C9_amended (s : BatcherState) (c : CastEvent)
    (h : s.batch.length + 1 ≥ s.batchSize) :
    (SimpleBatcher.add s c).batch = [] ∧
    (SimpleBatcher.add s c).inFlight = s.inFlight ++ [s.batch ++ [c]] ∧
    (SimpleBatcher.add s c).delivered = s.delivered ∧
    (∀ s2 : BatcherState, (SimpleBatcher.fireTimer s2).delivered = s2.delivered) := by
  rw [SimpleBatcher.add_at_threshold s c h, SimpleBatcher.flushStart_of_ne _ (by simp)]
  refine ⟨rfl, rfl, rfl, ?_⟩
  intro s2
  rw [SimpleBatcher.fireTimer]
  by_cases hb : s2.batch = []
  · rw [SimpleBatcher.flushStart_empty _ (by simpa using hb)]
  · rw [SimpleBatcher.flushStart_of_ne _ (by simpa using hb)]

/-- Witness for the amended C9 at the concrete 19-events-pending state. -/
theorem claim_C9_amended_witness :
    (SimpleBatcher.add s19 (ev 19)).batch = [] ∧
    (SimpleBatcher.add s19 (ev 19)).inFlight = s19.inFlight ++ [s19.batch ++ [ev 19]] ∧
    (SimpleBatcher.add s19 (ev 19)).delivered = s19.delivered ∧
    (∀ s2 : BatcherState, (SimpleBatcher.fireTimer s2).delivered = s2.delivered) :=
  claim_C9_amended s19 (ev 19) (by decide)

/-- Claim C10: the failure handler of a flush arms no idle timer — the
timer field, scheduled flag and live-timer count are untouched — so from
the resulting state (no pending timeout, nothing else in flight) any run of
timer callbacks, network responses and clock advances, with no further add
and no direct flush call, performs no delivery call and leaves the survivor
batch pending forever. -/
theorem claim_C10 (s : BatcherState) (b : List CastEvent)
    (hinf : s.inFlight = [b]) (hs : s.scheduled = false) :
    (SimpleBatcher.completeFail s 0).timer = s.timer ∧
    (SimpleBatcher.completeFail s 0).scheduled = false ∧
    (SimpleBatcher.completeFail s 0).liveTimers = s.liveTimers ∧
    (SimpleBatcher.completeFail s 0).batch = b.take 10 ++ s.batch ∧
    (SimpleBatcher.completeFail s 0).inFlight = [] ∧
    (∀ acts : List BAction, noAddNoFlush acts = true →
      (run (SimpleBatcher.completeFail s 0) acts).sent = (SimpleBatcher.completeFail s 0).sent ∧
      (run (SimpleBatcher.completeFail s 0) acts).batch = (SimpleBatcher.completeFail s 0).batch) := by
  have hidx : s.inFlight[(0 : Nat)]? = some b := by
    rw [hinf]
    rfl
  have hc : SimpleBatcher.completeFail s 0 =
      { s with inFlight := s.inFlight.eraseIdx 0, batch := b.take 10 ++ s.batch } := by
    rw [SimpleBatcher.completeFail, hidx]
  have hinf0 : (SimpleBatcher.completeFail s 0).inFlight = [] := by
    rw [hc]
    show s.inFlight.eraseIdx 0 = []
    rw [hinf]
    rfl
  have hsched0 : (SimpleBatcher.completeFail s 0).scheduled = false := by
    rw [hc]
    exact hs
  refine ⟨by rw [hc], hsched0, by rw [hc], by rw [hc], hinf0, ?_⟩
  intro acts hacts
  obtain ⟨h1, h2, -, -⟩ := run_quiescent acts (SimpleBatcher.completeFail s 0) hsched0 hinf0 hacts
  exact ⟨h1, h2⟩

/-- Witness for C10: after a failed delivery of a two-event batch with no
timer armed, a run of timer, response and clock actions (and no add) leaves
the survivors pending and sends nothing. -/
theorem claim_C10_witness :
    ({ SimpleBatcher.init 20 5000 with inFlight := [[ev 0, ev 1]] } : BatcherState).inFlight = [[ev 0, ev 1]] ∧
    ({ SimpleBatcher.init 20 5000 with inFlight := [[ev 0, ev 1]] } : BatcherState).scheduled = false ∧
    ((SimpleBatcher.completeFail { SimpleBatcher.init 20 5000 with inFlight := [[ev 0, ev 1]] } 0).timer =
        ({ SimpleBatcher.init 20 5000 with inFlight := [[ev 0, ev 1]] } : BatcherState).timer ∧
      (SimpleBatcher.completeFail { SimpleBatcher.init 20 5000 with inFlight := [[ev 0, ev 1]] } 0).scheduled = false ∧
      (SimpleBatcher.completeFail { SimpleBatcher.init 20 5000 with inFlight := [[ev 0, ev 1]] } 0).liveTimers =
        ({ SimpleBatcher.init 20 5000 with inFlight := [[ev 0, ev 1]] } : BatcherState).liveTimers ∧
      (SimpleBatcher.completeFail { SimpleBatcher.init 20 5000 with inFlight := [[ev 0, ev 1]] } 0).batch =
        ([ev 0, ev 1] : List CastEvent).take 10 ++
          ({ SimpleBatcher.init 20 5000 with inFlight := [[ev 0, ev 1]] } : BatcherState).batch ∧
      (SimpleBatcher.completeFail { SimpleBatcher.init 20 5000 with inFlight := [[ev 0, ev 1]] } 0).inFlight = [] ∧
      (∀ acts : List BAction, noAddNoFlush acts = true →
        (run (SimpleBatcher.completeFail { SimpleBatcher.init 20 5000 with inFlight := [[ev 0, ev 1]] } 0) acts).sent =
          (SimpleBatcher.completeFail { SimpleBatcher.init 20 5000 with inFlight := [[ev 0, ev 1]] } 0).sent ∧
        (run (SimpleBatcher.completeFail { SimpleBatcher.init 20 5000 with inFlight := [[ev 0, ev 1]] } 0) acts).batch =
          (SimpleBatcher.completeFail { SimpleBatcher.init 20 5000 with inFlight := [[ev 0, ev 1]] } 0).batch)) :=
  ⟨rfl, rfl, claim_C10 _ [ev 0, ev 1] rfl rfl⟩
